import Mathlib

/-!
Verification of the build-descriptor generator of `whapi`
(`src/whapi/rollup.config.mjs`): export-map construction, build-target
generation, and the manifest-update plugin, embedded shallowly as Lean
definitions with theorems settling the spec's claims.

JavaScript objects whose keys matter are modelled as insertion-ordered
association lists (`List (String × _)`); `Object.assign` / spread merging
is modelled by `assignPair`, which updates an existing key in place
(preserving its position, as JS does) and appends a fresh key at the end.
-/

namespace Whapi

/-- One export-map entry, a JS object mapping condition names
(`"import"`, `"require"`, `"types"`, `"default"`) to file paths.
Modelled as an ordered association list so that the set of keys is
observable. -/
abbrev ExportEntry := List (String × String)

/-- An export map: JS object mapping public subpaths (`"."`, `"./<name>"`)
to entries, insertion-ordered. -/
abbrev ExportMap := List (String × ExportEntry)

/-- Source line 13: `const usePreferConst = true`. -/
def usePreferConst : Bool := true

/-- Source line 14: `const useStrict = true`. -/
def useStrict : Bool := true

/-- Source line 15: `const useThrowOnError = true`. -/
def useThrowOnError : Bool := true

/-- Source line 16: `const useSourceMap = false`. -/
def useSourceMap : Bool := false

/-- Source line 17: `const useEsbuild = true`. -/
def useEsbuild : Bool := true

/-- Source line 18: `const modules = []` (the static module list). -/
def staticModules : List String := []

/-- Source lines 20-27: the fixed root export entry for subpath `"."`. -/
def rootExportEntry : ExportEntry :=
  [("import", "./dist/esm/index.mjs"),
   ("require", "./dist/cjs/index.cjs"),
   ("types", "./dist/index.d.ts"),
   ("default", "./dist/esm/index.mjs")]

/-- Source lines 20-27: `defaultExports`, the export map holding only the
root entry. -/
def defaultExports : ExportMap := [(".", rootExportEntry)]

/-- The subpath key `"./<name>"` generated for a module name
(source line 52). -/
def exportKey (moduleName : String) : String := "./" ++ moduleName

/-- Source lines 50-59: `createExportTemplate(moduleName)` builds the
single-key object `{ "./<name>": { import, require, types, default } }`;
modelled as the key-value pair it contributes. -/
def createExportTemplate (moduleName : String) : String × ExportEntry :=
  (exportKey moduleName,
   [("import", "./" ++ moduleName ++ "/index.mjs"),
    ("require", "./" ++ moduleName ++ "/index.cjs"),
    ("types", "./" ++ moduleName ++ "/index.d.ts"),
    ("default", "./" ++ moduleName ++ "/index.mjs")])

/-- JS `Object.assign(target, {...target, ...single})` for a single-key
source object: if the key is already present its value is replaced in
place (key order preserved), otherwise the pair is appended at the end. -/
def assignPair (m : ExportMap) (kv : String × ExportEntry) : ExportMap :=
  if m.any (fun p => p.1 == kv.1) then
    m.map (fun p => if p.1 == kv.1 then kv else p)
  else
    m ++ [kv]

/-- Source lines 144-149 (`updatePackageJsonExports.writeBundle`): the
export map is built by starting from `{...defaultExports}` and, for each
module name in order, merging in `createExportTemplate(moduleName)`.
The `base` parameter matches the spec's signature
`buildExportMap(moduleNames, baseExports)`; the source never reads the
input manifest's exports when building the map (line 144 spreads
`defaultExports` only), so `base` is unused, exactly as in the source. -/
def buildExportMap (moduleNames : List String) (base : ExportMap) : ExportMap :=
  moduleNames.foldl (fun acc n => assignPair acc (createExportTemplate n)) defaultExports

/-- The package manifest (`package.json`): its `exports` field, plus all
other fields (name, version, ...) which the update step only copies. -/
structure PackageManifest where
  rest : List (String × String)
  exports : ExportMap
  deriving DecidableEq, Repr

/-- Source lines 143-150: `const packageJsonDuplicate = { ...packageJson }`
followed by `packageJsonDuplicate.exports = updatedExports` — a shallow
copy whose `exports` field is set to the freshly built map. -/
def updatePackageJsonExports (moduleNames : List String) (pkg : PackageManifest) :
    PackageManifest :=
  { rest := pkg.rest, exports := buildExportMap moduleNames pkg.exports }

/-- The keys of an export map, in order. -/
def mapKeys (m : ExportMap) : List String := m.map Prod.fst

/-- Lookup in an ordered association list (first match wins, as JS
property access). -/
def lookupKey {α : Type} (m : List (String × α)) (k : String) : Option α :=
  (m.find? (fun p => p.1 == k)).map Prod.snd

/-! ## Build targets (rollup configuration objects) -/

/-- Rollup output format (`format: 'es'` / `format: 'cjs'`). -/
inductive ModuleFormat where
  | es
  | cjs
  deriving DecidableEq, Repr

/-- One element of a config's `plugins` array. Each constructor records
the options the source passes; `undef` is the literal `undefined` the
source leaves in the array when a ternary's condition is false. -/
inductive Plugin where
  | externals
  | json (preferConst : Bool)
  | typescriptPaths (preserveExtensions : Bool)
  | dts
  | esbuild
  | typescript (noEmitOnError : Bool) (removeComments : Bool)
  | updateExportsPlugin
  | undef
  deriving DecidableEq, Repr

/-- A config's `output` object. Optional fields are `none` when the
source config omits them. -/
structure OutputOptions where
  file : String
  format : ModuleFormat
  constBindings : Option Bool := none
  strict : Option Bool := none
  entryFileNames : Option String := none
  sourcemap : Option Bool := none
  deriving DecidableEq, Repr

/-- One rollup build configuration (one build target). -/
structure BuildConfig where
  input : String
  output : OutputOptions
  external : List String := []
  plugins : List Plugin
  deriving DecidableEq, Repr

/-- Source lines 29-49: `createTsDefinitionConfigForModule(moduleName)`,
the per-module type-declaration target. -/
def createTsDefinitionConfigForModule (moduleName : String) : BuildConfig :=
  { input := "src/modules/" ++ moduleName ++ "/index.ts",
    output := { file := moduleName ++ "/index.d.ts", format := .es },
    external := [],
    plugins := [.externals, .json usePreferConst, .typescriptPaths true, .dts] }

/-- Source lines 60-97: `createCjsConfigForModules(moduleNames)`; the
`b` parameter is the `useEsbuild` toggle the source reads globally. -/
def createCjsConfigForModules (b : Bool) (moduleNames : List String) : List BuildConfig :=
  moduleNames.map (fun moduleName =>
    { input := "src/modules/" ++ moduleName ++ "/index.ts",
      output := { file := moduleName ++ "/index.cjs", format := .cjs,
                  constBindings := some usePreferConst, strict := some useStrict,
                  entryFileNames := some "[name].cjs", sourcemap := some useSourceMap },
      external := [],
      plugins := [.externals, .json usePreferConst,
                  if b then .typescriptPaths true else .undef,
                  if b then .esbuild else .typescript useThrowOnError true] })

/-- Source lines 99-136: `createEsmConfigForModules(moduleNames)`. -/
def createEsmConfigForModules (b : Bool) (moduleNames : List String) : List BuildConfig :=
  moduleNames.map (fun moduleName =>
    { input := "src/modules/" ++ moduleName ++ "/index.ts",
      output := { file := moduleName ++ "/index.mjs", format := .es,
                  constBindings := some usePreferConst, strict := some useStrict,
                  entryFileNames := some "[name].mjs", sourcemap := some useSourceMap },
      external := [],
      plugins := [.externals, .json usePreferConst,
                  if b then .typescriptPaths true else .undef,
                  if b then .esbuild else .typescript useThrowOnError true] })

/-- Source lines 169-188: the root type-declaration config (the first
element of the exported array); it carries the
`updatePackageJsonExports()` plugin. -/
def rootDtsConfig : BuildConfig :=
  { input := "src/index.ts",
    output := { file := "dist/index.d.ts", format := .es },
    external := [],
    plugins := [.externals, .json usePreferConst, .typescriptPaths true, .dts,
                .updateExportsPlugin] }

/-- Source lines 189-220: the root ES-module config. -/
def rootEsmConfig : BuildConfig :=
  { input := "src/index.ts",
    output := { file := "dist/esm/index.mjs", format := .es,
                constBindings := some usePreferConst, strict := some useStrict,
                entryFileNames := some "[name].mjs", sourcemap := some useSourceMap },
    external := [],
    plugins := [.externals, .json usePreferConst,
                if useEsbuild then .typescriptPaths true else .undef,
                if useEsbuild then .esbuild else .typescript useThrowOnError true] }

/-- Source lines 221-252: the root CommonJS config. -/
def rootCjsConfig : BuildConfig :=
  { input := "src/index.ts",
    output := { file := "dist/cjs/index.cjs", format := .cjs,
                constBindings := some usePreferConst, strict := some useStrict,
                entryFileNames := some "[name].cjs", sourcemap := some useSourceMap },
    external := [],
    plugins := [.externals, .json usePreferConst,
                if useEsbuild then .typescriptPaths true else .undef,
                if useEsbuild then .esbuild else .typescript useThrowOnError true] }

/-- The spec's `generateRootTargets()`: the three root configs, in source
order (dts, esm, cjs). -/
def generateRootTargets : List BuildConfig :=
  [rootDtsConfig, rootEsmConfig, rootCjsConfig]

/-- The spec's `generateModuleTargets(moduleNames)`: the per-module part
of the exported array (source lines 253-255) — all type-declaration
configs, then all CJS configs, then all ESM configs. -/
def generateModuleTargets (b : Bool) (moduleNames : List String) : List BuildConfig :=
  moduleNames.map createTsDefinitionConfigForModule
    ++ createCjsConfigForModules b moduleNames
    ++ createEsmConfigForModules b moduleNames

/-- Source lines 168-256: the full exported config array, parameterized
by the module list (the source reads the global `modules`, line 18). -/
def rollupConfigArray (moduleNames : List String) : List BuildConfig :=
  generateRootTargets ++ generateModuleTargets useEsbuild moduleNames

/-! ## Build execution order

Rollup's multi-config driver builds the configs of the exported array one
after another, in array order; for each config it writes that config's
output file and then runs the `writeBundle` hooks of that config's
plugins. Of the plugins used here only `updatePackageJsonExports()`
(source line 141) has a `writeBundle` hook — the manifest write. The
resulting event trace makes the write ordering observable. -/

/-- An observable event of a build run. -/
inductive BuildEvent where
  | wroteOutput (file : String)
  | wroteManifest
  deriving DecidableEq, Repr

/-- The events one config contributes: its output file is written, then
each `writeBundle` hook among its plugins runs. -/
def configEvents (c : BuildConfig) : List BuildEvent :=
  BuildEvent.wroteOutput c.output.file ::
    c.plugins.filterMap (fun p =>
      if p = Plugin.updateExportsPlugin then some BuildEvent.wroteManifest else none)

/-- The event trace of building a config array in order. -/
def buildTrace (configs : List BuildConfig) : List BuildEvent :=
  (configs.map configEvents).flatten

/-- How many times the manifest is written in a trace. -/
def manifestWriteCount (t : List BuildEvent) : Nat :=
  t.countP (fun e => e == BuildEvent.wroteManifest)

/-- How many output files are written strictly after the first manifest
write in a trace (`0` when the manifest is never written). -/
def outputsAfterManifest (t : List BuildEvent) : Nat :=
  match t with
  | [] => 0
  | BuildEvent.wroteManifest :: rest =>
      rest.countP (fun e => match e with
        | BuildEvent.wroteOutput _ => true
        | BuildEvent.wroteManifest => false)
  | BuildEvent.wroteOutput _ :: rest => outputsAfterManifest rest

/-- The ordering discipline the spec asserts: the manifest is written
exactly once, and no target output is written after it. -/
def manifestAfterAllOutputs (t : List BuildEvent) : Prop :=
  manifestWriteCount t = 1 ∧ outputsAfterManifest t = 0

/-! ## The manifest write (`writeBundle`, source lines 141-164) -/

/-- The body of the `writeBundle` hook in the `Except` monad: build the
updated manifest, then `await fs.writeFile('./package.json', ...)`.
`write` abstracts `fs.writeFile` applied to the (serialized) updated
manifest; a rejected promise is `.error`. The hook neither catches, nor
retries, nor replaces the rejection, so the awaited result is the hook's
result. -/
def runWriteBundle (write : PackageManifest → Except String Unit)
    (moduleNames : List String) (pkg : PackageManifest) : Except String Unit := do
  let updated := updatePackageJsonExports moduleNames pkg
  write updated

/-! ## Helper lemmas about the export map -/

theorem fst_createExportTemplate (n : String) : (createExportTemplate n).1 = exportKey n := rfl

theorem exportKey_injective : Function.Injective exportKey := by
  intro a b h
  have h2 := congrArg String.data h
  simp [exportKey, String.data_append] at h2
  exact String.ext h2

theorem exportKey_ne_root (n : String) : exportKey n ≠ "." := by
  intro h
  have h1 := congrArg String.length h
  simp only [exportKey] at h1
  rw [String.length_append] at h1
  have h2 : "./".length = 2 := by decide
  have h3 : (".").length = 1 := by decide
  omega

theorem any_key_iff (m : ExportMap) (k : String) :
    (m.any fun p => p.1 == k) = true ↔ k ∈ mapKeys m := by
  simp [mapKeys, List.any_eq_true]

theorem mapKeys_assignPair (m : ExportMap) (kv : String × ExportEntry) :
    mapKeys (assignPair m kv)
      = if kv.1 ∈ mapKeys m then mapKeys m else mapKeys m ++ [kv.1] := by
  unfold assignPair
  split
  next h =>
    rw [if_pos ((any_key_iff m kv.1).1 h)]
    simp only [mapKeys, List.map_map]
    apply List.map_congr_left
    intro p hp
    by_cases hpk : p.1 = kv.1
    · simp [Function.comp, hpk]
    · simp [Function.comp, hpk]
  next h =>
    rw [if_neg (fun hmem => h ((any_key_iff m kv.1).2 hmem))]
    simp [mapKeys]

theorem nodup_mapKeys_assignPair (m : ExportMap) (kv : String × ExportEntry)
    (h : (mapKeys m).Nodup) : (mapKeys (assignPair m kv)).Nodup := by
  rw [mapKeys_assignPair]
  split
  · exact h
  next hnot =>
    rw [List.nodup_append]
    refine ⟨h, List.nodup_singleton _, ?_⟩
    intro x hx hmem
    rw [List.mem_singleton] at hmem
    exact hnot (hmem ▸ hx)

theorem foldl_assign_keys_toFinset (M : List String) (acc : ExportMap) :
    (mapKeys (M.foldl (fun a n => assignPair a (createExportTemplate n)) acc)).toFinset
      = (mapKeys acc).toFinset ∪ (M.map exportKey).toFinset := by
  induction M generalizing acc with
  | nil => simp
  | cons n M ih =>
    rw [List.foldl_cons, ih, mapKeys_assignPair, fst_createExportTemplate]
    by_cases h : exportKey n ∈ mapKeys acc
    · rw [if_pos h]
      ext x
      simp only [Finset.mem_union, List.mem_toFinset, List.map_cons, List.mem_cons]
      constructor
      · rintro (hx | hx)
        · exact Or.inl hx
        · exact Or.inr (Or.inr hx)
      · rintro (hx | hx | hx)
        · exact Or.inl hx
        · exact Or.inl (hx ▸ h)
        · exact Or.inr hx
    · rw [if_neg h]
      ext x
      simp only [Finset.mem_union, List.mem_toFinset, List.mem_append, List.mem_singleton,
        List.map_cons, List.mem_cons]
      tauto

theorem nodup_mapKeys_foldl (M : List String) (acc : ExportMap)
    (h : (mapKeys acc).Nodup) :
    (mapKeys (M.foldl (fun a n => assignPair a (createExportTemplate n)) acc)).Nodup := by
  induction M generalizing acc with
  | nil => exact h
  | cons n M ih => exact ih _ (nodup_mapKeys_assignPair _ _ h)

theorem nodup_mapKeys_buildExportMap (M : List String) (base : ExportMap) :
    (mapKeys (buildExportMap M base)).Nodup :=
  nodup_mapKeys_foldl M defaultExports (by simp [defaultExports, mapKeys])

theorem mapKeys_buildExportMap_toFinset (M : List String) (base : ExportMap) :
    (mapKeys (buildExportMap M base)).toFinset = insert "." (M.map exportKey).toFinset := by
  rw [buildExportMap, foldl_assign_keys_toFinset]
  ext x
  simp [defaultExports, mapKeys]

theorem length_buildExportMap (M : List String) (base : ExportMap) :
    (buildExportMap M base).length = 1 + M.dedup.length := by
  have hlen : (buildExportMap M base).length = (mapKeys (buildExportMap M base)).length := by
    simp [mapKeys]
  rw [hlen, ← List.toFinset_card_of_nodup (nodup_mapKeys_buildExportMap M base),
    mapKeys_buildExportMap_toFinset]
  rw [Finset.card_insert_of_not_mem (by
    simp only [List.mem_toFinset, List.mem_map, not_exists]
    rintro n ⟨_, hn⟩
    exact exportKey_ne_root n hn)]
  have himg : (M.map exportKey).toFinset = M.toFinset.image exportKey := by
    ext x; simp
  rw [himg, Finset.card_image_of_injective _ exportKey_injective, List.card_toFinset]
  omega

theorem find?_update_self (m : ExportMap) (kv : String × ExportEntry)
    (hany : (m.any fun p => p.1 == kv.1) = true) :
    (m.map fun p => if p.1 == kv.1 then kv else p).find? (fun p => p.1 == kv.1) = some kv := by
  induction m with
  | nil => simp at hany
  | cons a m ih =>
    by_cases hk : a.1 = kv.1
    · rw [List.map_cons, if_pos (beq_iff_eq.2 hk)]
      exact List.find?_cons_of_pos _ (by simp)
    · rw [List.map_cons, if_neg (by simpa using hk)]
      rw [List.find?_cons_of_neg _ (by simpa using hk)]
      apply ih
      rcases List.any_eq_true.1 hany with ⟨p, hp, hpk⟩
      rcases List.mem_cons.1 hp with rfl | hp2
      · exact absurd (beq_iff_eq.1 hpk) hk
      · exact List.any_eq_true.2 ⟨p, hp2, hpk⟩

theorem find?_update_other (m : ExportMap) (kv : String × ExportEntry) (k : String)
    (hne : k ≠ kv.1) :
    (m.map fun p => if p.1 == kv.1 then kv else p).find? (fun p => p.1 == k)
      = m.find? (fun p => p.1 == k) := by
  induction m with
  | nil => rfl
  | cons a m ih =>
    rw [List.map_cons]
    by_cases hk : a.1 = kv.1
    · rw [if_pos (beq_iff_eq.2 hk)]
      rw [List.find?_cons_of_neg _ (by simp [Ne.symm hne])]
      rw [List.find?_cons_of_neg _ (by simp [hk, Ne.symm hne])]
      exact ih
    · rw [if_neg (by simpa using hk)]
      by_cases hak : a.1 = k
      · rw [List.find?_cons_of_pos _ (by simp [hak]), List.find?_cons_of_pos _ (by simp [hak])]
      · rw [List.find?_cons_of_neg _ (by simp [hak]), List.find?_cons_of_neg _ (by simp [hak])]
        exact ih

theorem lookupKey_assignPair_same (m : ExportMap) (kv : String × ExportEntry) :
    lookupKey (assignPair m kv) kv.1 = some kv.2 := by
  unfold assignPair lookupKey
  split
  next hany =>
    rw [find?_update_self m kv hany]
    rfl
  next hany =>
    rw [List.find?_append]
    have hnone : m.find? (fun p => p.1 == kv.1) = none := by
      rw [List.find?_eq_none]
      intro x hx hxk
      exact hany (List.any_eq_true.2 ⟨x, hx, hxk⟩)
    rw [hnone]
    rw [List.find?_cons_of_pos _ (by simp)]
    rfl

theorem lookupKey_assignPair_other (m : ExportMap) (kv : String × ExportEntry) (k : String)
    (hne : k ≠ kv.1) : lookupKey (assignPair m kv) k = lookupKey m k := by
  unfold assignPair lookupKey
  split
  · rw [find?_update_other m kv k hne]
  · rw [List.find?_append]
    rw [List.find?_cons_of_neg _ (by simp [Ne.symm hne])]
    simp

theorem lookupKey_foldl_not_mem (M : List String) (acc : ExportMap) (k : String)
    (h : ∀ n ∈ M, exportKey n ≠ k) :
    lookupKey (M.foldl (fun a n => assignPair a (createExportTemplate n)) acc) k
      = lookupKey acc k := by
  induction M generalizing acc with
  | nil => rfl
  | cons n M ih =>
    rw [List.foldl_cons, ih _ (fun m hm => h m (List.mem_cons_of_mem _ hm))]
    exact lookupKey_assignPair_other acc _ k
      (fun he => h n (List.mem_cons_self _ _) he.symm)

theorem lookupKey_foldl_mem (M : List String) (acc : ExportMap) (n : String) (hn : n ∈ M) :
    lookupKey (M.foldl (fun a m => assignPair a (createExportTemplate m)) acc) (exportKey n)
      = some (createExportTemplate n).2 := by
  induction M generalizing acc with
  | nil => cases hn
  | cons a M ih =>
    rw [List.foldl_cons]
    by_cases hmem : n ∈ M
    · exact ih _ hmem
    · have hna : n = a := by
        rcases List.mem_cons.1 hn with h1 | h1
        · exact h1
        · exact absurd h1 hmem
      subst hna
      rw [lookupKey_foldl_not_mem M _ _
        (fun m hm he => hmem (by
          have hmn : m = n := exportKey_injective he
          rwa [hmn] at hm))]
      exact lookupKey_assignPair_same acc (createExportTemplate n)

theorem lookupKey_buildExportMap_mem (M : List String) (base : ExportMap) (n : String)
    (hn : n ∈ M) :
    lookupKey (buildExportMap M base) (exportKey n) = some (createExportTemplate n).2 :=
  lookupKey_foldl_mem M defaultExports n hn

theorem lookupKey_buildExportMap_root (M : List String) (base : ExportMap) :
    lookupKey (buildExportMap M base) "." = some rootExportEntry := by
  rw [buildExportMap, lookupKey_foldl_not_mem M defaultExports "."
    (fun n _ => exportKey_ne_root n)]
  rfl

theorem mem_assignPair (m : ExportMap) (kv : String × ExportEntry) (p : String × ExportEntry)
    (hp : p ∈ assignPair m kv) : p ∈ m ∨ p = kv := by
  unfold assignPair at hp
  split at hp
  · rcases List.mem_map.1 hp with ⟨q, hq, hqe⟩
    by_cases hk : q.1 = kv.1
    · right
      rw [← hqe, if_pos (beq_iff_eq.2 hk)]
    · left
      rw [← hqe, if_neg (by simpa using hk)]
      exact hq
  · rcases List.mem_append.1 hp with h1 | h1
    · exact Or.inl h1
    · right
      simpa using h1

theorem mem_foldl_shape (M : List String) (acc : ExportMap) (p : String × ExportEntry)
    (hacc : ∀ q ∈ acc, q = (".", rootExportEntry) ∨ ∃ n, q = createExportTemplate n)
    (hp : p ∈ M.foldl (fun a m => assignPair a (createExportTemplate m)) acc) :
    p = (".", rootExportEntry) ∨ ∃ n, p = createExportTemplate n := by
  induction M generalizing acc with
  | nil => exact hacc p hp
  | cons a M ih =>
    rw [List.foldl_cons] at hp
    refine ih _ ?_ hp
    intro q hq
    rcases mem_assignPair acc _ q hq with h1 | h1
    · exact hacc q h1
    · exact Or.inr ⟨a, h1⟩

theorem mem_buildExportMap_shape (M : List String) (base : ExportMap)
    (p : String × ExportEntry) (hp : p ∈ buildExportMap M base) :
    p = (".", rootExportEntry) ∨ ∃ n, p = createExportTemplate n :=
  mem_foldl_shape M defaultExports p
    (by
      intro q hq
      left
      simpa [defaultExports] using hq) hp

theorem lookupKey_eq_none {α : Type} (m : List (String × α)) (k : String)
    (h : k ∉ m.map Prod.fst) : lookupKey m k = none := by
  unfold lookupKey
  have hnone : m.find? (fun p => p.1 == k) = none :=
    List.find?_eq_none.2 (fun x hx hxk => h (List.mem_map.2 ⟨x, hx, beq_iff_eq.1 hxk⟩))
  rw [hnone]
  rfl

/-! ## Claim theorems -/

/-- C1: For every non-empty module list `M` whose subpath keys `./<name>` are all
absent from the base export map, `buildExportMap M base` has exactly
`1 + |dedup M|` entries (the root entry plus one `./<name>` entry per unique
name); for every name of `M` the final map binds `./<name>` to the entry derived
from that name (the last colliding write, which coincides with every earlier
one since the entry is a function of the name); and the result contains the
root entry `"."`. -/
theorem C1_buildExportMap_size_root_lastWriteWins (M : List String) (base : ExportMap)
    (hne : M ≠ []) (hbase : ∀ n ∈ M, exportKey n ∉ mapKeys base) :
    (buildExportMap M base).length = 1 + M.dedup.length
      ∧ (∀ n ∈ M, lookupKey (buildExportMap M base) (exportKey n)
          = some (createExportTemplate n).2)
      ∧ lookupKey (buildExportMap M base) "." = some rootExportEntry :=
  ⟨length_buildExportMap M base,
   fun n hn => lookupKey_buildExportMap_mem M base n hn,
   lookupKey_buildExportMap_root M base⟩

/-- C1 witness: instantiation at the duplicate-bearing list `["a", "a"]` and the
empty base map. -/
theorem C1_buildExportMap_size_root_lastWriteWins_witness :
    (buildExportMap ["a", "a"] []).length = 1 + (["a", "a"].dedup).length
      ∧ lookupKey (buildExportMap ["a", "a"] []) (exportKey "a")
          = some (createExportTemplate "a").2
      ∧ lookupKey (buildExportMap ["a", "a"] []) "." = some rootExportEntry := by
  have h := C1_buildExportMap_size_root_lastWriteWins ["a", "a"] []
    (by decide) (by simp [mapKeys])
  exact ⟨h.1, h.2.1 "a" (by simp), h.2.2⟩

/-- C2: the export-map regeneration is idempotent — applying the manifest-update
step a second time, with the same module list and the already-updated manifest
as input, produces the same export map and the same manifest. -/
theorem C2_updatePackageJsonExports_idempotent (M : List String) (pkg : PackageManifest) :
    buildExportMap M (buildExportMap M pkg.exports) = buildExportMap M pkg.exports
      ∧ updatePackageJsonExports M (updatePackageJsonExports M pkg)
          = updatePackageJsonExports M pkg :=
  ⟨rfl, rfl⟩

/-- C3 counterexample: the input manifest's exports entry `"./legacy"` is NOT
present in the updated manifest's export map — the update step does not merge
the input's exports entries into the generated map. -/
theorem C3_counterexample_input_entry_dropped :
    lookupKey (updatePackageJsonExports []
        { rest := [("name", "whapi")],
          exports := [("./legacy", [("import", "./legacy/index.mjs")])] }).exports
      "./legacy" = none
    ∧ lookupKey
        ({ rest := [("name", "whapi")],
           exports := [("./legacy", [("import", "./legacy/index.mjs")])] }
          : PackageManifest).exports "./legacy"
      = some [("import", "./legacy/index.mjs")] :=
  ⟨rfl, rfl⟩

/-- C3 (amended): the manifest-update step replaces the manifest's `exports`
field with the freshly generated export map (the default root entry followed by
the generated `./<name>` entries); entries of the input manifest's exports are
not carried over. -/
theorem C3_amended_exports_replaced (M : List String) (pkg : PackageManifest) :
    (updatePackageJsonExports M pkg).exports = buildExportMap M [] := rfl

/-- C5: if the manifest persistence write fails, the `writeBundle` hook's result
is exactly that failure — the error is propagated to the caller unchanged,
neither swallowed nor downgraded. -/
theorem C5_write_failure_propagates (write : PackageManifest → Except String Unit)
    (M : List String) (pkg : PackageManifest) (e : String) :
    (write (updatePackageJsonExports M pkg) = Except.error e →
        runWriteBundle write M pkg = Except.error e)
      ∧ (runWriteBundle write M pkg = Except.error e →
        write (updatePackageJsonExports M pkg) = Except.error e) :=
  ⟨fun h => h, fun h => h⟩

/-- C5 witness: a permission-denied write makes the hook report exactly that
error. -/
theorem C5_write_failure_propagates_witness :
    runWriteBundle (fun _ => Except.error "EACCES") [] { rest := [], exports := [] }
      = Except.error "EACCES" :=
  (C5_write_failure_propagates (fun _ => Except.error "EACCES") []
    { rest := [], exports := [] } "EACCES").1 rfl

/-- C8: frame condition — the manifest produced for persistence agrees with the
input manifest on every field other than `exports`; in particular the update
with the empty module list leaves all non-exports fields unchanged. -/
theorem C8_update_frame_condition (M : List String) (pkg : PackageManifest) :
    (updatePackageJsonExports M pkg).rest = pkg.rest
      ∧ (updatePackageJsonExports [] pkg).rest = pkg.rest :=
  ⟨rfl, rfl⟩

/-- C9: the generated export map is a function of the module list alone — two
input manifests differing only in their `exports` fields yield the same
exports value, and no key outside the generated ones (the root `"."` and the
`./<name>` keys) occurs in the output map: pre-existing entries neither
influence nor survive into it. -/
theorem C9_exports_independent_of_input (M : List String)
    (rest : List (String × String)) (e1 e2 : ExportMap) :
    (updatePackageJsonExports M { rest := rest, exports := e1 }).exports
      = (updatePackageJsonExports M { rest := rest, exports := e2 }).exports
    ∧ ∀ k, k ≠ "." → (∀ n ∈ M, k ≠ exportKey n) →
        lookupKey (updatePackageJsonExports M { rest := rest, exports := e1 }).exports k
          = none := by
  constructor
  · rfl
  · intro k hk1 hk2
    apply lookupKey_eq_none
    intro hmem
    have hfin : k ∈ (mapKeys (buildExportMap M e1)).toFinset := List.mem_toFinset.2 hmem
    rw [mapKeys_buildExportMap_toFinset] at hfin
    rcases Finset.mem_insert.1 hfin with h1 | h1
    · exact hk1 h1
    · rcases List.mem_map.1 (List.mem_toFinset.1 h1) with ⟨n, hn, he⟩
      exact hk2 n hn he.symm

/-- C9 witness: a pre-existing `"./old"` entry neither changes the generated
map nor survives into it. -/
theorem C9_exports_independent_of_input_witness :
    (updatePackageJsonExports ["a"]
        { rest := [], exports := [("./old", [("import", "x")])] }).exports
      = (updatePackageJsonExports ["a"] { rest := [], exports := [] }).exports
    ∧ lookupKey (updatePackageJsonExports ["a"]
        { rest := [], exports := [("./old", [("import", "x")])] }).exports "./old"
      = none := by
  have h := C9_exports_independent_of_input ["a"] [] [("./old", [("import", "x")])] []
  refine ⟨h.1, h.2 "./old" (by decide) ?_⟩
  intro n hn
  rw [List.mem_singleton] at hn
  subst hn
  decide

/-- C10: every entry of every export map the builder produces — the root entry
and every generated `./<name>` entry — has exactly the four keys `import`,
`require`, `types`, `default`, in that order, and its `default` target equals
its `import` target (the ESM `.mjs` path). -/
theorem C10_entry_keys_and_default_eq_import (M : List String) (base : ExportMap)
    (k : String) (v : ExportEntry) (hmem : (k, v) ∈ buildExportMap M base) :
    v.map Prod.fst = ["import", "require", "types", "default"]
      ∧ lookupKey v "default" = lookupKey v "import" := by
  rcases mem_buildExportMap_shape M base (k, v) hmem with h1 | ⟨n, h1⟩
  · have hv : v = rootExportEntry := congrArg Prod.snd h1
    subst hv
    exact ⟨rfl, rfl⟩
  · have hv : v = (createExportTemplate n).2 := congrArg Prod.snd h1
    subst hv
    exact ⟨rfl, rfl⟩

/-- C10 witness: instantiation at the root entry of the map generated for the
module list `["a"]`. -/
theorem C10_entry_keys_and_default_eq_import_witness :
    rootExportEntry.map Prod.fst = ["import", "require", "types", "default"]
      ∧ lookupKey rootExportEntry "default" = lookupKey rootExportEntry "import" :=
  C10_entry_keys_and_default_eq_import ["a"] [] "." rootExportEntry (by decide)

/-! ## Helper lemmas about the build trace -/

theorem buildTrace_append (a b : List BuildConfig) :
    buildTrace (a ++ b) = buildTrace a ++ buildTrace b := by
  simp [buildTrace]

theorem buildTrace_cons (c : BuildConfig) (cs : List BuildConfig) :
    buildTrace (c :: cs) = configEvents c ++ buildTrace cs := by
  simp [buildTrace]

theorem manifestWriteCount_append (t1 t2 : List BuildEvent) :
    manifestWriteCount (t1 ++ t2) = manifestWriteCount t1 + manifestWriteCount t2 := by
  simp [manifestWriteCount, List.countP_append]

theorem manifestWriteCount_trace_map (f : String → BuildConfig)
    (h : ∀ n, manifestWriteCount (configEvents (f n)) = 0) (M : List String) :
    manifestWriteCount (buildTrace (M.map f)) = 0 := by
  induction M with
  | nil => rfl
  | cons n M ih =>
    rw [List.map_cons, buildTrace_cons, manifestWriteCount_append, h n, ih]

theorem manifestWriteCount_moduleTargets (b : Bool) (M : List String) :
    manifestWriteCount (buildTrace (generateModuleTargets b M)) = 0 := by
  unfold generateModuleTargets createCjsConfigForModules createEsmConfigForModules
  rw [buildTrace_append, buildTrace_append, manifestWriteCount_append,
    manifestWriteCount_append]
  rw [manifestWriteCount_trace_map createTsDefinitionConfigForModule (fun n => rfl) M]
  rw [manifestWriteCount_trace_map _ (fun n => by cases b <;> rfl) M]
  rw [manifestWriteCount_trace_map _ (fun n => by cases b <;> rfl) M]

/-! ## Remaining claim theorems -/

/-- C4 counterexample: in the build of the source's config array (static module
list `[]`), the manifest-write ordering asserted by the claim fails — the
manifest is written while the root ESM and CJS outputs are not yet
materialized (two output writes occur after it). -/
theorem C4_counterexample_manifest_before_outputs :
    ¬ manifestAfterAllOutputs (buildTrace (rollupConfigArray staticModules)) := by
  unfold manifestAfterAllOutputs
  decide

/-- C4 (amended): the manifest write happens exactly once per build invocation,
and it is sequenced immediately after the root type-declaration output — i.e.
before the root ESM/CJS outputs and all module outputs are written, because the
`updatePackageJsonExports` plugin sits on the first config of the array. -/
theorem C4_amended_manifest_once_after_dts (M : List String) :
    manifestWriteCount (buildTrace (rollupConfigArray M)) = 1
      ∧ (buildTrace (rollupConfigArray M)).take 2
          = [BuildEvent.wroteOutput "dist/index.d.ts", BuildEvent.wroteManifest] := by
  constructor
  · unfold rollupConfigArray
    rw [buildTrace_append, manifestWriteCount_append,
      manifestWriteCount_moduleTargets]
    rfl
  · unfold rollupConfigArray
    rw [buildTrace_append]
    rfl

/-- C6: `generateModuleTargets` maps the empty list to the empty list, produces
exactly three targets per list element (so duplicates yield duplicate targets,
without deduplication), preserves the input order within each of its three
groups (witnessed by the per-target input paths), and for
`["billing", "reports"]` under the esbuild fast path produces exactly 6
targets: 2 type-declaration, 2 ESM (non-declaration `es`), 2 CJS; a duplicated
name yields literally equal targets. -/
theorem C6_generateModuleTargets_shape (b : Bool) (M : List String) :
    generateModuleTargets b [] = []
      ∧ (generateModuleTargets b M).length = 3 * M.length
      ∧ (generateModuleTargets b M).map BuildConfig.input
          = (M ++ M ++ M).map (fun n => "src/modules/" ++ n ++ "/index.ts")
      ∧ (generateModuleTargets true ["billing", "reports"]).length = 6
      ∧ ((generateModuleTargets true ["billing", "reports"]).countP
          (fun c => c.plugins.contains Plugin.dts)) = 2
      ∧ ((generateModuleTargets true ["billing", "reports"]).countP
          (fun c => c.output.format == ModuleFormat.es && !(c.plugins.contains Plugin.dts))) = 2
      ∧ ((generateModuleTargets true ["billing", "reports"]).countP
          (fun c => c.output.format == ModuleFormat.cjs)) = 2
      ∧ (generateModuleTargets true ["a", "a"])[0]?
          = (generateModuleTargets true ["a", "a"])[1]? := by
  refine ⟨rfl, ?_, ?_, by decide, by decide, by decide, by decide, by decide⟩
  · unfold generateModuleTargets createCjsConfigForModules createEsmConfigForModules
    simp [List.length_append]
    ring
  · unfold generateModuleTargets createCjsConfigForModules createEsmConfigForModules
    simp [List.map_append, List.map_map, Function.comp_def]
    intro a _
    rfl

/-- C7: the root entry point always gets exactly three targets, independent of
the module list (they are the first three configs of the array for every module
list): a type-declaration target of format `es` carrying the `dts` plugin and
no code-emitting compiler plugin, an ES-module target of format `es` with
strict mode on, constant bindings preferred and source maps off, and a
CommonJS target of format `cjs` with the same options. -/
theorem C7_generateRootTargets_fixed (M : List String) :
    (rollupConfigArray M).take 3 = generateRootTargets
      ∧ generateRootTargets.length = 3
      ∧ generateRootTargets.map BuildConfig.input
          = ["src/index.ts", "src/index.ts", "src/index.ts"]
      ∧ rootDtsConfig.output.format = ModuleFormat.es
      ∧ Plugin.dts ∈ rootDtsConfig.plugins
      ∧ Plugin.esbuild ∉ rootDtsConfig.plugins
      ∧ Plugin.typescript useThrowOnError true ∉ rootDtsConfig.plugins
      ∧ rootEsmConfig.output.format = ModuleFormat.es
      ∧ rootEsmConfig.output.strict = some true
      ∧ rootEsmConfig.output.constBindings = some true
      ∧ rootEsmConfig.output.sourcemap = some false
      ∧ rootCjsConfig.output.format = ModuleFormat.cjs
      ∧ rootCjsConfig.output.strict = some true
      ∧ rootCjsConfig.output.constBindings = some true
      ∧ rootCjsConfig.output.sourcemap = some false := by
  refine ⟨?_, by decide, by decide, by decide, by decide, by decide, by decide, by decide,
    by decide, by decide, by decide, by decide, by decide, by decide, by decide⟩
  unfold rollupConfigArray
  exact List.take_left' rfl

end Whapi
